import Mathlib

set_option maxRecDepth 200000

deriving instance DecidableEq for Except

/-!
Shallow embedding of the TPCM random architecture generator
(`src/tpcm_generator`): the sampling utilities (`utils.py`), the four
generation stages of `ModelGenerator` (`model_generator.py`), the shared
module-level configuration (`config.py`) and the fixed standard-definitions
and resource-environment fixtures, together with theorems settling the
frozen specification claims.

Conventions of the embedding:
* The pseudo-random source (`random.*`) is modelled as an explicit stream
  of natural-number draws (`Rng`); each primitive consumes draws from the
  front of the stream.  An exhausted stream yields `0`, so every primitive
  stays total as a state machine.
* Fallible Python operations (`raise ValueError` / `IndexError`) become
  `Except String`.
* CPython's iteration order over a `set` of objects is implementation
  defined (it depends on object addresses).  Every `list(set(a) - set(b))`
  conversion in the source is therefore parameterised by a Boolean order
  choice `ord`: `false` keeps the filtered order, `true` reverses it — two
  legitimate iteration orders a real run may exhibit.
* Python object identity of generated interfaces is modelled by a numeric
  `id` field assigned at creation.
* A lookup of an attribute that does not exist on an object raises
  `AttributeError`; `self.std_defs.get_cpu_interface()` at
  model_generator.py:251 is such a lookup (no provider defines that
  method), modelled by the corresponding error in `mkComponents`.
-/

/-- Explicit random source: the stream of upcoming draws.  `random.seed`
replaces the whole state, which is modelled by `seedRng` below. -/
structure Rng where
  future : List Nat
  deriving DecidableEq, Repr

/-- Take the next draw (0 once the listed entropy is exhausted). -/
def Rng.next : Rng → Nat × Rng
  | ⟨[]⟩ => (0, ⟨[]⟩)
  | ⟨d :: ds⟩ => (d, ⟨ds⟩)

/-- Model of `random.seed(s)`: a deterministic state depending only on `s`. -/
def seedRng (s : Nat) : Rng :=
  ⟨(List.range 512).map fun n => (n + s) % 5⟩

/-- Model of `random.randint(a, b)` on naturals: raises `ValueError` when
the range is empty, otherwise returns a value in `[a, b]`. -/
def pyRandint (a b : Nat) (rng : Rng) : Except String (Nat × Rng) :=
  if b < a then .error "empty range for randrange"
  else
    let (d, rng') := rng.next
    .ok (a + d % (b - a + 1), rng')

/-- Model of `random.randint(a, b)` on integers (used for the
`int_param_min`/`int_param_max` literal range). -/
def pyRandintInt (a b : Int) (rng : Rng) : Except String (Int × Rng) :=
  if b < a then .error "empty range for randrange"
  else
    let (d, rng') := rng.next
    .ok (a + (d : Int) % (b - a + 1), rng')

/-- Model of `random.choice(xs)`: `IndexError` on an empty sequence,
otherwise a position determined by the next draw. -/
def pyChoice {α : Type} (xs : List α) (rng : Rng) : Except String (α × Rng) :=
  match xs with
  | [] => .error "cannot choose from an empty sequence"
  | x :: rest =>
    let (d, rng') := rng.next
    .ok ((x :: rest).getD (d % (x :: rest).length) x, rng')

/-- One selection step for `random.sample`: pick the element at the drawn
position and also return the list with that position removed. -/
def pyPick {α : Type} (xs : List α) (d : Nat) : Option (α × List α) :=
  match xs with
  | [] => none
  | x :: rest =>
    let i := d % (x :: rest).length
    some ((x :: rest).getD i x, (x :: rest).eraseIdx i)

/-- Model of `random.sample(xs, k)`: `k` draws without replacement;
`ValueError` when `k` exceeds the population size. -/
def pySampleGo {α : Type} (k : Nat) (xs : List α) (rng : Rng) : List α × Rng :=
  match k with
  | 0 => ([], rng)
  | k' + 1 =>
    let (d, rng') := rng.next
    match pyPick xs d with
    | none => ([], rng')
    | some (x, rest) =>
      let (tail, rng'') := pySampleGo k' rest rng'
      (x :: tail, rng'')

def pySample {α : Type} (xs : List α) (k : Nat) (rng : Rng) :
    Except String (List α × Rng) :=
  if xs.length < k then .error "Sample larger than population or is negative"
  else .ok (pySampleGo k xs rng)

/-- Model of `random.shuffle`: draw a random permutation of the list.  The
source mutates in place with Fisher-Yates; the embedding returns the
permuted list, selecting a random remaining element per position. -/
def pyShuffle {α : Type} (xs : List α) (rng : Rng) : List α × Rng :=
  pySampleGo xs.length xs rng

/-- Model of `random.choices(string.ascii_uppercase, k=8)` joined to a
suffix, as done by `random_name` in `utils.py`. -/
def upperChar (d : Nat) : Char := Char.ofNat (65 + d % 26)

def randomSuffix : Nat → Rng → List Char × Rng
  | 0, rng => ([], rng)
  | n + 1, rng =>
    let (d, rng') := rng.next
    let (rest, rng'') := randomSuffix n rng'
    (upperChar d :: rest, rng'')

/-- `random_name(prefix)` from `utils.py`: prefix, underscore, eight random
upper-case letters. -/
def random_name (pre : String) (rng : Rng) : String × Rng :=
  let (cs, rng') := randomSuffix 8 rng
  (pre ++ "_" ++ String.mk cs, rng')

/-- Model of `random.uniform(a, b)` over rationals: a deterministic value
inside `[a, b]` selected by the next draw. -/
def pyUniform (a b : Rat) (rng : Rng) : Rat × Rng :=
  let (d, rng') := rng.next
  (a + (b - a) * ((d % 101 : Nat) : Rat) / 100, rng')

/-- Model of Python `round(x, 2)`. -/
def pyRound2 (q : Rat) : Rat :=
  (⌊q * 100 + 1 / 2⌋ : Int) / 100

/-- Model of Python `round(n / 2)` for a natural `n` (banker's rounding on
the exact float `n / 2`). -/
def pyRoundHalf (n : Nat) : Nat :=
  if n % 2 = 0 then n / 2
  else if (n / 2) % 2 = 0 then n / 2 else n / 2 + 1

/-- Conversion `list(set(a) - set(b))` from `utils.py`'s samplers.  The
element set is determined by the source; the iteration order is
implementation defined and is modelled by the order choice `ord`. -/
def setToList {α : Type} [DecidableEq α] (ord : Bool) (a b : List α) : List α :=
  let kept := a.filter fun x => ¬ x ∈ b
  if ord then kept.reverse else kept

section Samplers

variable {α : Type} [DecidableEq α]

/-- State of `UniqueRandomInterfaceSampler` (`utils.py`, lines 219-244). -/
structure UniqueRandomInterfaceSampler (α : Type) where
  data : List α
  remaining : List α
  remaining_provided : List α
  deriving DecidableEq, Repr

def UniqueRandomInterfaceSampler.init (data : List α) :
    UniqueRandomInterfaceSampler α :=
  ⟨data, data, data⟩

/-- `UniqueRandomInterfaceSampler.sample(count_provided, count_required)`.
Raises `ValueError` whenever the two requested counts together exceed the
universe, exactly as the guard at the top of the source method does. -/
def UniqueRandomInterfaceSampler.sample (ord : Bool)
    (s : UniqueRandomInterfaceSampler α) (count_provided count_required : Nat)
    (rng : Rng) :
    Except String ((List α × List α) × UniqueRandomInterfaceSampler α × Rng) :=
  if s.data.length < count_provided + count_required then
    .error "2 * n cannot be greater than the size of the data set"
  else do
    let pool_p :=
      if s.remaining_provided.length < count_provided then s.data
      else s.remaining_provided
    let (list_provided, rng) ← pySample pool_p count_provided rng
    let remaining_provided' := setToList ord pool_p list_provided
    let remaining₀ := setToList ord s.remaining list_provided
    let remaining₁ :=
      if remaining₀.length < count_required then setToList ord s.data list_provided
      else remaining₀
    let (list_required, rng) ← pySample remaining₁ count_required rng
    let remaining' := setToList ord remaining₁ list_required
    .ok ((list_provided, list_required),
      ⟨s.data, remaining', remaining_provided'⟩, rng)

/-- State of `UniqueRandomSampler` (`utils.py`, lines 247-258). -/
structure UniqueRandomSampler (α : Type) where
  data : List α
  remaining : List α
  deriving DecidableEq, Repr

def UniqueRandomSampler.init (data : List α) : UniqueRandomSampler α :=
  ⟨data, data⟩

/-- `UniqueRandomSampler.sample()`: reset the pool when it is exhausted,
choose a random remaining element, remove it. -/
def UniqueRandomSampler.sample (s : UniqueRandomSampler α) (rng : Rng) :
    Except String (α × UniqueRandomSampler α × Rng) :=
  let rem := if s.remaining.isEmpty then s.data else s.remaining
  match pyChoice rem rng with
  | .error e => .error e
  | .ok (c, rng') => .ok (c, ⟨s.data, rem.erase c⟩, rng')

/-- Iterate `UniqueRandomSampler.sample` `n` times, collecting outputs. -/
def UniqueRandomSampler.run (s : UniqueRandomSampler α) (rng : Rng) :
    Nat → Except String (List α × UniqueRandomSampler α × Rng)
  | 0 => .ok ([], s, rng)
  | n + 1 =>
    match s.sample rng with
    | .error e => .error e
    | .ok (c, s', rng') =>
      match s'.run rng' n with
      | .error e => .error e
      | .ok (cs, s'', rng'') => .ok (c :: cs, s'', rng'')

end Samplers

/-! ## Data model (`model_factory.py`, `std_definitions.py`) -/

/-- The four primitive type kinds (`PrimitiveTypeEnum`). -/
inductive PTy
  | tInt
  | tStr
  | tBool
  | tDouble
  deriving DecidableEq, Repr

/-- Identity of a `PrimitiveDatatype` object: the four instances a run's
`_create_primitive_types` creates in its repository, or the two fixture
instances of the external standard-definitions provider.  Object identity
matters because `generate_repository` compares parameter types with `==`
against its own `self.primitive_types` objects. -/
inductive TypeRef
  | repo (t : PTy)
  | stdInt
  | stdDouble
  deriving DecidableEq, Repr

/-- `Parameter(name, type)`. -/
structure Param where
  name : String
  type : TypeRef
  deriving DecidableEq, Repr

/-- `OperationSignature`: name, optional return type, parameter list. -/
structure OpSignature where
  name : String
  ret : Option TypeRef
  params : List Param
  deriving DecidableEq, Repr

/-- Whether an interface is a generated `DomainInterface` or a fixture
`ResourceInterface` of the standard definitions. -/
inductive IfaceKind
  | domain
  | resource
  deriving DecidableEq, Repr

/-- An interface object.  `id` models Python object identity (interfaces
are used as dictionary keys and as set elements in the source). -/
structure Iface where
  id : Nat
  kind : IfaceKind
  name : String
  sigs : List OpSignature
  deriving DecidableEq, Repr

/-- Fixture `ICPU` of the standard-definitions provider: one signature
`process(amount : Double)` whose parameter type is the provider's own
`Double` object. -/
def icpu : Iface :=
  ⟨0, .resource, "ICPU", [⟨"process", none, [⟨"amount", .stdDouble⟩]⟩]⟩

/-- `DomainInterfaceProvidedRole`. -/
structure ProvidedRole where
  name : String
  type : Iface
  deriving DecidableEq, Repr

/-- `InterfaceRequiredRole` (the infrastructure `cpu` role included). -/
structure RequiredRole where
  name : String
  type : Iface
  deriving DecidableEq, Repr

/-- A synthesized argument literal (`IntLiteral` / `StringLiteral` /
`BoolLiteral` / `DoubleLiteral` of the expression factory). -/
inductive Literal
  | int (v : Int)
  | str (v : String)
  | bool (v : Bool)
  | double (v : Rat)
  deriving DecidableEq, Repr

/-- `SEFFCallAction`: the chosen required role, the chosen signature of its
interface, one literal per parameter of that signature. -/
structure SeffCall where
  role : RequiredRole
  signature : OpSignature
  args : List Literal
  deriving DecidableEq, Repr

/-- `SEFF`: bound to a provided role and one of its signatures, containing
exactly one call action. -/
structure Seff where
  role : ProvidedRole
  signatur : OpSignature
  call : SeffCall
  deriving DecidableEq, Repr

/-- `Component`: its `contents` list split by object class. -/
structure Component where
  name : String
  provided : List ProvidedRole
  required : List RequiredRole
  seffs : List Seff
  deriving DecidableEq, Repr

/-- `Repository` output of `generate_repository` (primitive datatypes are
tracked through `TypeRef.repo`). -/
structure Repository where
  name : String
  interfaces : List Iface
  components : List Component
  deriving DecidableEq, Repr

/-- `AssemblyContext`. -/
structure Assembly where
  name : String
  component : Component
  deriving DecidableEq, Repr

/-- `Connector`: `from` assembly (provider), `to` assembly (requirer) and
the requiring role. -/
structure Connector where
  fromCtx : Assembly
  toCtx : Assembly
  requiringRole : RequiredRole
  deriving DecidableEq, Repr

/-- `SystemProvidedRole` (an exposed entry point). -/
structure SystemProvidedRole where
  name : String
  type : Iface
  toCtx : Assembly
  deriving DecidableEq, Repr

/-- `System`: its `contents` split by object class. -/
structure PcmSystem where
  name : String
  assemblies : List Assembly
  connectors : List Connector
  exposed : List SystemProvidedRole
  deriving DecidableEq, Repr

/-- `AllocationContext`: an allocation group bound to one container. -/
structure AllocationCtx where
  name : String
  group : List Assembly
  container : String
  deriving DecidableEq, Repr

/-- `Allocation`. -/
structure Allocation where
  name : String
  contexts : List AllocationCtx
  deriving DecidableEq, Repr

/-- Workload of a usage scenario. -/
inductive Workload
  | openW (interArrivalTime : Rat)
  | closedW (numberOfUsers : Nat) (thinkTime : Rat)
  deriving DecidableEq, Repr

/-- `EntryLevelSystemCallAction`: exposed role, signature, one named
literal per parameter. -/
structure EntryCall where
  role : SystemProvidedRole
  signature : OpSignature
  args : List (String × Literal)
  deriving DecidableEq, Repr

/-- `UsageScenario`. -/
structure UsageScenario where
  name : String
  workload : Workload
  calls : List EntryCall
  deriving DecidableEq, Repr

/-- `Usage` model: zero or one scenario. -/
structure Usage where
  name : String
  scenarios : List UsageScenario
  deriving DecidableEq, Repr

/-- A complete generated model (the four fragments produced by
`generate_complete_model`). -/
structure PcmModel where
  repository : Repository
  system : PcmSystem
  allocation : Allocation
  usage : Usage
  deriving DecidableEq, Repr

/-! ## Configuration (`config.py`) -/

/-- The flat configuration mapping of `config.py`, one field per key. -/
structure Config where
  max_parameters_per_signature : Nat
  min_signatures_per_interface : Nat
  max_signatures_per_interface : Nat
  min_provided_interfaces_per_component : Nat
  min_required_interfaces_per_component : Nat
  min_exposed_interfaces : Nat
  max_exposed_interfaces : Nat
  min_allocation_groups : Nat
  max_user_count : Nat
  min_calls : Nat
  max_calls : Nat
  int_param_min : Int
  int_param_max : Int
  string_param_min_length : Nat
  string_param_max_length : Nat
  double_param_min : Rat
  double_param_max : Rat
  arrival_rate_min : Rat
  arrival_rate_max : Rat
  think_time_min : Rat
  think_time_max : Rat
  deriving DecidableEq, Repr

/-- The default values of the module-level `config` dictionary. -/
def defaultConfig : Config where
  max_parameters_per_signature := 5
  min_signatures_per_interface := 1
  max_signatures_per_interface := 10
  min_provided_interfaces_per_component := 1
  min_required_interfaces_per_component := 1
  min_exposed_interfaces := 1
  max_exposed_interfaces := 10
  min_allocation_groups := 1
  max_user_count := 20
  min_calls := 1
  max_calls := 9
  int_param_min := 0
  int_param_max := 100
  string_param_min_length := 5
  string_param_max_length := 150
  double_param_min := 0
  double_param_max := 100
  arrival_rate_min := 1 / 100
  arrival_rate_max := 9 / 10
  think_time_min := 1 / 2
  think_time_max := 50

/-! ## Repository generation (`generate_repository`) -/

/-- The values of `self.primitive_types` in dictionary insertion order
(Integer, String, Boolean, Double). -/
def primitiveTypesList : List TypeRef :=
  [.repo .tInt, .repo .tStr, .repo .tBool, .repo .tDouble]

/-- One character of `string.ascii_letters + string.digits` selected by a
draw (26 lower-case, 26 upper-case, 10 digits). -/
def alnumChar (d : Nat) : Char :=
  let i := d % 62
  if i < 26 then Char.ofNat (97 + i)
  else if i < 52 then Char.ofNat (65 + (i - 26))
  else Char.ofNat (48 + (i - 52))

/-- Random alphanumeric string of the given length (the `random.choices`
join used for string-valued parameter literals). -/
def alnumString : Nat → Rng → String × Rng
  | 0, rng => ("", rng)
  | n + 1, rng =>
    let (d, rng) := rng.next
    let (rest, rng) := alnumString n rng
    (String.mk [alnumChar d] ++ rest, rng)

/-- Type-directed literal synthesis of the SEFF internal-call site
(`generate_repository`, lines 292-343): the parameter type object is
compared with `==` against the run's own primitive-type objects, and
everything unrecognized falls back to a double literal. -/
def seffLiteral (cfg : Config) (t : TypeRef) (rng : Rng) :
    Except String (Literal × Rng) :=
  if t = .repo .tInt then do
    let (v, rng) ← pyRandintInt cfg.int_param_min cfg.int_param_max rng
    .ok (.int v, rng)
  else if t = .repo .tStr then do
    let (len, rng) ←
      pyRandint cfg.string_param_min_length cfg.string_param_max_length rng
    let (s, rng) := alnumString len rng
    .ok (.str s, rng)
  else if t = .repo .tBool then do
    let (b, rng) ← pyChoice [true, false] rng
    .ok (.bool b, rng)
  else
    let (u, rng) := pyUniform cfg.double_param_min cfg.double_param_max rng
    .ok (.double (pyRound2 u), rng)

/-- One literal per parameter of the chosen required signature. -/
def mkSeffArgs (cfg : Config) : List Param → Rng → Except String (List Literal × Rng)
  | [], rng => .ok ([], rng)
  | p :: ps, rng => do
    let (l, rng) ← seffLiteral cfg p.type rng
    let (rest, rng) ← mkSeffArgs cfg ps rng
    .ok (l :: rest, rng)

/-- The parameter list of a random signature: each parameter gets a
uniformly chosen primitive type and the name `param{i}`. -/
def mkParams : Nat → Nat → Rng → Except String (List Param × Rng)
  | 0, _, rng => .ok ([], rng)
  | n + 1, i, rng => do
    let (t, rng) ← pyChoice primitiveTypesList rng
    let (rest, rng) ← mkParams n (i + 1) rng
    .ok (⟨"param" ++ toString i, t⟩ :: rest, rng)

/-- `_create_random_signature`: random name, uniformly chosen return type,
0 .. `max_parameters_per_signature` parameters. -/
def mkSignature (cfg : Config) (rng : Rng) : Except String (OpSignature × Rng) := do
  let (name, rng) := random_name "operation" rng
  let (ret, rng) ← pyChoice primitiveTypesList rng
  let (paramCount, rng) ← pyRandint 0 cfg.max_parameters_per_signature rng
  let (params, rng) ← mkParams paramCount 0 rng
  .ok (⟨name, some ret, params⟩, rng)

def mkSignatures (cfg : Config) : Nat → Rng → Except String (List OpSignature × Rng)
  | 0, rng => .ok ([], rng)
  | n + 1, rng => do
    let (sig, rng) ← mkSignature cfg rng
    let (rest, rng) ← mkSignatures cfg n rng
    .ok (sig :: rest, rng)

/-- The interface-creation loop of `generate_repository` (lines 159-182):
each interface draws its signature count from
`[min_signatures_per_interface, max_signatures_per_interface]`. -/
def mkInterfaces (cfg : Config) : Nat → Nat → Rng → Except String (List Iface × Rng)
  | 0, _, rng => .ok ([], rng)
  | n + 1, idx, rng => do
    let (name, rng) := random_name "interface" rng
    let (sigCount, rng) ←
      pyRandint cfg.min_signatures_per_interface cfg.max_signatures_per_interface rng
    let (sigs, rng) ← mkSignatures cfg sigCount rng
    let (rest, rng) ← mkInterfaces cfg n (idx + 1) rng
    .ok (⟨idx, .domain, name, sigs⟩ :: rest, rng)

/-- The per-component role-creation loops (lines 225-248): one iteration
per sampled interface, guarded by `if self.interfaces`, drawing the
concrete interface from a `UniqueRandomSampler` and a fresh role name. -/
def mkComponentRoles (pre : String) (guard : Bool) :
    UniqueRandomSampler Iface → Nat → Rng →
    Except String (List (String × Iface) × UniqueRandomSampler Iface × Rng)
  | s, 0, rng => .ok ([], s, rng)
  | s, n + 1, rng =>
    if guard then do
      let (iface, s, rng) ← s.sample rng
      let (name, rng) := random_name pre rng
      let (rest, s, rng) ← mkComponentRoles pre guard s n rng
      .ok ((name, iface) :: rest, s, rng)
    else do
      let (rest, s, rng) ← mkComponentRoles pre guard s n rng
      .ok (rest, s, rng)

/-- The SEFF loop body for the signatures of one provided role. -/
def mkSeffsForRole (cfg : Config) (requiredRoles : List RequiredRole)
    (provRole : ProvidedRole) :
    List OpSignature → Rng → Except String (List Seff × Rng)
  | [], rng => .ok ([], rng)
  | sig :: sigs, rng => do
    let (reqRole, rng) ← pyChoice requiredRoles rng
    let (reqSig, rng) ← pyChoice reqRole.type.sigs rng
    let (args, rng) ← mkSeffArgs cfg reqSig.params rng
    let (rest, rng) ← mkSeffsForRole cfg requiredRoles provRole sigs rng
    .ok (⟨provRole, sig, ⟨reqRole, reqSig, args⟩⟩ :: rest, rng)

/-- The outer SEFF loop (lines 268-345): one SEFF per provided role and
signature, each holding exactly one internal call action. -/
def mkSeffs (cfg : Config) (requiredRoles : List RequiredRole) :
    List ProvidedRole → Rng → Except String (List Seff × Rng)
  | [], rng => .ok ([], rng)
  | pr :: prs, rng => do
    let (ours, rng) ← mkSeffsForRole cfg requiredRoles pr pr.type.sigs rng
    let (rest, rng) ← mkSeffs cfg requiredRoles prs rng
    .ok (ours ++ rest, rng)

/-- The component-creation loop of `generate_repository` (lines 187-357).
After the two role loops, line 251 evaluates
`self.std_defs.get_cpu_interface()` — but `_PCMStandardDefinitions`
(std_definitions.py) defines no `get_cpu_interface` method and nothing in
the repository injects one, so every component iteration raises
`AttributeError` there.  The remainder of the loop body (appending the
infrastructure role and building the SEFFs, modelled standalone by
`mkSeffs`) is unreachable. -/
def mkComponents (cfg : Config) (ord : Bool) (interfaces : List Iface) :
    UniqueRandomInterfaceSampler Iface → Nat → Rng →
    Except String (List Component × UniqueRandomInterfaceSampler Iface × Rng)
  | sampler, 0, rng => .ok ([], sampler, rng)
  | sampler, _n + 1, rng => do
    let ni := interfaces.length
    let max_provided := max 1 (min ni (pyRoundHalf ni))
    let max_required := max 1 (min ni (pyRoundHalf ni))
    let min_provided := min cfg.min_provided_interfaces_per_component max_provided
    let min_required := min cfg.min_required_interfaces_per_component max_required
    let (pCnt, rng) ← pyRandint min_provided max_provided rng
    let (rCnt, rng) ← pyRandint min_required max_required rng
    let (lists, _sampler, rng) ← sampler.sample ord pCnt rCnt rng
    let provSampler := UniqueRandomSampler.init lists.1
    let reqSampler := UniqueRandomSampler.init lists.2
    let (_cname, rng) := random_name "component" rng
    let (_provPairs, _, rng) ←
      mkComponentRoles "provided" (decide (interfaces ≠ [])) provSampler
        lists.1.length rng
    let (_reqPairs, _, _rng) ←
      mkComponentRoles "required" (decide (interfaces ≠ [])) reqSampler
        lists.2.length rng
    .error "AttributeError: _PCMStandardDefinitions object has no attribute get_cpu_interface"

/-- `ModelGenerator.generate_repository(num_interfaces, num_components)`
(lines 142-359): repository name, primitive types (pure fixtures),
interfaces, then components fed by one shared interface sampler. -/
def generate_repository (cfg : Config) (ord : Bool)
    (num_interfaces num_components : Nat) (rng : Rng) :
    Except String (Repository × Rng) := do
  let (rname, rng) := random_name "repository" rng
  let (interfaces, rng) ← mkInterfaces cfg num_interfaces 1 rng
  let sampler := UniqueRandomInterfaceSampler.init interfaces
  let (components, _, rng) ← mkComponents cfg ord interfaces sampler num_components rng
  .ok (⟨rname, interfaces, components⟩, rng)

/-! ## System generation (`generate_system`) -/

/-- `add_to_dictionary` from `utils.py`: append to the entry's list,
creating the entry on first use (dictionary = insertion-ordered
association list). -/
def add_to_dictionary (key : Iface) (value : Assembly) :
    List (Iface × List Assembly) → List (Iface × List Assembly)
  | [] => [(key, [value])]
  | (k, vs) :: rest =>
    if k = key then (k, vs ++ [value]) :: rest
    else (k, vs) :: add_to_dictionary key value rest

/-- Dictionary lookup (`req_role.type in map` plus indexing). -/
def dictFind (key : Iface) : List (Iface × List Assembly) → Option (List Assembly)
  | [] => none
  | (k, vs) :: rest => if k = key then some vs else dictFind key rest

/-- The role-collection loop of `generate_system` (lines 390-403): walk the
assemblies in order, indexing providing assemblies by interface and
collecting the (assembly, role) pairs of both directions. -/
def collectRoles :
    List Assembly → List (Iface × List Assembly) →
    List (Assembly × ProvidedRole) → List (Assembly × RequiredRole) →
    List (Iface × List Assembly) × List (Assembly × ProvidedRole) ×
      List (Assembly × RequiredRole)
  | [], m, p, r => (m, p, r)
  | a :: rest, m, p, r =>
    let m' := a.component.provided.foldl (fun acc role => add_to_dictionary role.type a acc) m
    let p' := p ++ a.component.provided.map fun role => (a, role)
    let r' := r ++ a.component.required.map fun role => (a, role)
    collectRoles rest m' p' r'

/-- The connector loop (lines 405-429): skip infrastructure roles by name,
and wire a connector only when the index holds a provider for exactly the
required role's interface. -/
def mkConnectors (m : List (Iface × List Assembly)) :
    List (Assembly × RequiredRole) → Rng → Except String (List Connector × Rng)
  | [], rng => .ok ([], rng)
  | (a, r) :: rest, rng =>
    if r.name = "cpu" ∨ r.name = "hdd" then mkConnectors m rest rng
    else
      match dictFind r.type m with
      | none => mkConnectors m rest rng
      | some providers =>
        if providers.isEmpty then mkConnectors m rest rng
        else do
          let (pa, rng) ← pyChoice providers rng
          let (restConn, rng) ← mkConnectors m rest rng
          .ok (⟨pa, a, r⟩ :: restConn, rng)

/-- Assembly-context creation: one per available component. -/
def mkAssemblies : List Component → Rng → List Assembly × Rng
  | [], rng => ([], rng)
  | c :: cs, rng =>
    let (name, rng) := random_name "assembly" rng
    let (rest, rng) := mkAssemblies cs rng
    (⟨name, c⟩ :: rest, rng)

/-- Exposed-role creation for the sampled (assembly, provided role) pairs. -/
def mkSystemProvidedRoles :
    List (Assembly × ProvidedRole) → Rng → List SystemProvidedRole × Rng
  | [], rng => ([], rng)
  | (a, role) :: rest, rng =>
    let (name, rng) := random_name "system_provided" rng
    let (tail, rng) := mkSystemProvidedRoles rest rng
    (⟨name, role.type, a⟩ :: tail, rng)

/-- `ModelGenerator.generate_system` (lines 361-463). -/
def generate_system (cfg : Config) (components : List Component) (rng : Rng) :
    Except String (PcmSystem × Rng) := do
  let (sname, rng) := random_name "system" rng
  let available := components.filter fun c =>
    ¬ (c.provided = [] ∧ c.required = [] ∧ c.seffs = [])
  if available.isEmpty then .ok (⟨sname, [], [], []⟩, rng)
  else
    let (assemblies, rng) := mkAssemblies available rng
    let collected := collectRoles assemblies [] [] []
    let m := collected.1
    let provided_roles := collected.2.1
    let required_roles := collected.2.2
    let (connectors, rng) ← mkConnectors m required_roles rng
    let (drawn, rng) ←
      pyRandint cfg.min_exposed_interfaces cfg.max_exposed_interfaces rng
    let exposed_count := min drawn provided_roles.length
    if provided_roles.isEmpty then
      .ok (⟨sname, assemblies, connectors, []⟩, rng)
    else do
      let (chosen, rng) ← pySample provided_roles exposed_count rng
      let (exposed, rng) := mkSystemProvidedRoles chosen rng
      .ok (⟨sname, assemblies, connectors, exposed⟩, rng)

/-! ## Allocation generation (`generate_allocation`) -/

/-- Container fixture of the external resource-environment provider: a
single `ApplicationServer` container. -/
def resource_containers : List String := ["ApplicationServer"]

/-- The even split of the shuffled assembly list (lines 510-520): group
`i` has `base` elements plus one extra for `i < remainder`, and empty
slices are not appended. -/
def splitGroups {α : Type} (base : Nat) :
    Nat → Nat → List α → List (List α)
  | 0, _, _ => []
  | g + 1, rem, xs =>
    let size := base + (if 0 < rem then 1 else 0)
    let rest := splitGroups base g (rem - 1) (xs.drop size)
    if 0 < size then xs.take size :: rest else rest

/-- Allocation-context creation (lines 522-534): group `i` goes to
container `i`, silently dropping groups beyond the container count. -/
def mkAllocationCtxs (containers : List String) :
    Nat → List (List Assembly) → Rng → List AllocationCtx × Rng
  | _, [], rng => ([], rng)
  | i, g :: gs, rng =>
    if i < containers.length ∧ ¬ g.isEmpty then
      let (name, rng) := random_name "alloc" rng
      let (rest, rng) := mkAllocationCtxs containers (i + 1) gs rng
      (⟨name, g, containers.getD i ""⟩ :: rest, rng)
    else mkAllocationCtxs containers (i + 1) gs rng

/-- `ModelGenerator.generate_allocation` (lines 465-543). -/
def generate_allocation (cfg : Config) (containers : List String)
    (system : PcmSystem) (rng : Rng) : Except String (Allocation × Rng) := do
  let (aname, rng) := random_name "allocation" rng
  if containers.isEmpty then .ok (⟨aname, []⟩, rng)
  else
    let assemblies := system.assemblies
    if assemblies.isEmpty then .ok (⟨aname, []⟩, rng)
    else do
      let bound := min containers.length assemblies.length
      let (r, rng) ← pyRandint cfg.min_allocation_groups bound rng
      let num_groups := max cfg.min_allocation_groups r
      let (shuffled, rng) := pyShuffle assemblies rng
      -- Python `//` raises ZeroDivisionError when the group count is zero
      -- (reachable when `min_allocation_groups` is configured as 0).
      if num_groups = 0 then .error "integer division or modulo by zero"
      else
      let base := shuffled.length / num_groups
      let rem := shuffled.length % num_groups
      let groups := splitGroups base num_groups rem shuffled
      let (ctxs, rng) := mkAllocationCtxs containers 0 groups rng
      .ok (⟨aname, ctxs⟩, rng)

/-! ## Usage-model generation (`generate_usage_model`) -/

/-- The `PrimitiveTypeEnum` name of a parameter type
(`param.type.type.name` in the source). -/
def typeEnumName : TypeRef → String
  | .repo .tInt => "INT"
  | .repo .tStr => "STRING"
  | .repo .tBool => "BOOL"
  | .repo .tDouble => "DOUBLE"
  | .stdInt => "INT"
  | .stdDouble => "DOUBLE"

/-- Literal synthesis at the usage-model entry-call site (lines 642-698):
dispatch on the enum name; the final branch (`STRING` and anything else)
produces the constant string literal `"1"`. -/
def usageLiteral (cfg : Config) (t : TypeRef) (rng : Rng) :
    Except String (Literal × Rng) :=
  if typeEnumName t = "INT" then do
    let (v, rng) ← pyRandintInt cfg.int_param_min cfg.int_param_max rng
    .ok (.int v, rng)
  else if typeEnumName t = "DOUBLE" then
    let (u, rng) := pyUniform cfg.double_param_min cfg.double_param_max rng
    .ok (.double (pyRound2 u), rng)
  else if typeEnumName t = "BOOL" then do
    let (b, rng) ← pyChoice [true, false] rng
    .ok (.bool b, rng)
  else .ok (.str "1", rng)

/-- One named literal per parameter of the chosen entry signature (the
namespace/absolute references carry no randomness and no literal data). -/
def mkEntryArgs (cfg : Config) :
    List Param → Rng → Except String (List (String × Literal) × Rng)
  | [], rng => .ok ([], rng)
  | p :: ps, rng => do
    let (l, rng) ← usageLiteral cfg p.type rng
    let (rest, rng) ← mkEntryArgs cfg ps rng
    .ok ((p.name, l) :: rest, rng)

/-- The entry-call loop (lines 604-711): choose a role, then a signature
of its interface when it has one, then the argument literals. -/
def mkEntryCalls (cfg : Config) (roles : List SystemProvidedRole) :
    Nat → Rng → Except String (List EntryCall × Rng)
  | 0, rng => .ok ([], rng)
  | n + 1, rng => do
    let (role, rng) ← pyChoice roles rng
    if role.type.sigs.isEmpty then mkEntryCalls cfg roles n rng
    else do
      let signatures := role.type.sigs
      if signatures.isEmpty then mkEntryCalls cfg roles n rng
      else do
        let (sig, rng) ← pyChoice signatures rng
        let (args, rng) ← mkEntryArgs cfg sig.params rng
        let (rest, rng) ← mkEntryCalls cfg roles n rng
        .ok (⟨role, sig, args⟩ :: rest, rng)

/-- `ModelGenerator.generate_usage_model` (lines 545-728): an empty usage
model when the system exposes nothing, otherwise one scenario with a
coin-chosen workload and a drawn number of entry calls. -/
def generate_usage_model (cfg : Config) (system : PcmSystem) (rng : Rng) :
    Except String (Usage × Rng) := do
  let (uname, rng) := random_name "usage" rng
  let roles := system.exposed
  if roles.isEmpty then .ok (⟨uname, []⟩, rng)
  else do
    let (scname, rng) := random_name "scenario" rng
    let (coin, rng) ← pyChoice [true, false] rng
    let (workload, rng) ←
      if coin then
        let (rate, rng) := pyUniform cfg.arrival_rate_min cfg.arrival_rate_max rng
        (.ok (Workload.openW rate, rng) : Except String (Workload × Rng))
      else do
        let (users, rng) ← pyRandint 1 cfg.max_user_count rng
        let (tt, rng) := pyUniform cfg.think_time_min cfg.think_time_max rng
        .ok (Workload.closedW users tt, rng)
    let (callCount, rng) ← pyRandint cfg.min_calls cfg.max_calls rng
    let (calls, rng) ← mkEntryCalls cfg roles callCount rng
    .ok (⟨uname, [⟨scname, workload, calls⟩]⟩, rng)

/-! ## Process-level model: shared configuration and global random state -/

/-- The mutable module-level state a run lives in: the module-level
`config` dictionary of `config.py` and the global `random` state. -/
structure PyProcess where
  globalConfig : Config
  globalRng : Rng
  deriving Repr

/-- A fresh interpreter: default configuration, arbitrary entropy. -/
def freshProcess (rng : Rng) : PyProcess :=
  ⟨defaultConfig, rng⟩

/-- `ModelGenerator.__init__(seed, **config)` (lines 15-79): seed the
global random state when a seed is given, then bind `self.config` to the
module-level dictionary and write the overrides through it.  There is no
validation of any kind.  Returns the new process state and the instance's
effective configuration (an alias of the module-level dictionary). -/
def initModelGenerator (seed : Option Nat) (overrides : Config → Config)
    (p : PyProcess) : PyProcess × Config :=
  let rng := match seed with
    | some s => seedRng s
    | none => p.globalRng
  let cfg := overrides p.globalConfig
  (⟨cfg, rng⟩, cfg)

/-- The generation pipeline of `generate_complete_model` (lines 738-796):
repository, system, allocation, usage, in that order. -/
def generate_complete_model (cfg : Config) (ord : Bool) (ni nc : Nat)
    (rng : Rng) : Except String (PcmModel × Rng) := do
  let (repo, rng) ← generate_repository cfg ord ni nc rng
  let (system, rng) ← generate_system cfg repo.components rng
  let (alloc, rng) ← generate_allocation cfg resource_containers system rng
  let (usage, rng) ← generate_usage_model cfg system rng
  .ok (⟨repo, system, alloc, usage⟩, rng)

/-- A full run: construct a generator in the given process state, then
generate the complete model. -/
def runGeneration (p : PyProcess) (seed : Option Nat)
    (overrides : Config → Config) (ord : Bool) (ni nc : Nat) :
    Except String (PcmModel × Rng) :=
  let (p', cfg) := initModelGenerator seed overrides p
  generate_complete_model cfg ord ni nc p'.globalRng

/-! ## Derived notions and concrete fixtures used by the verification -/

/-- The kind of literal an expression-factory literal is. -/
def literalKind : Literal → PTy
  | .int _ => .tInt
  | .str _ => .tStr
  | .bool _ => .tBool
  | .double _ => .tDouble

/-- The primitive kind a parameter's declared type object denotes. -/
def declaredKind : TypeRef → PTy
  | .repo t => t
  | .stdInt => .tInt
  | .stdDouble => .tDouble

/-- Invariant of `interface_to_providing_component_map`: every assembly in
the entry of interface `k` provides `k`. -/
def mapInv (m : List (Iface × List Assembly)) : Prop :=
  ∀ k vs, dictFind k m = some vs →
    ∀ a ∈ vs, ∃ pr ∈ a.component.provided, pr.type = k

/-- A small concrete configuration used by witness runs. -/
def cfgSmall : Config := { defaultConfig with
  min_signatures_per_interface := 1, max_signatures_per_interface := 1,
  max_parameters_per_signature := 0, max_exposed_interfaces := 1,
  max_calls := 1, max_user_count := 1 }

/-- Concrete fixtures for witness and counterexample runs. -/
def ifaceX : Iface := ⟨1, .domain, "IX", [⟨"op", some (.repo .tInt), []⟩]⟩

def compA : Component := ⟨"A", [⟨"pA", ifaceX⟩], [], []⟩

def compB : Component := ⟨"B", [], [⟨"rB", ifaceX⟩], []⟩

/-- The connector `generate_system` produces for `compA`/`compB` on an
all-zero draw stream. -/
def connW : Connector :=
  ⟨⟨"assembly_AAAAAAAA", compA⟩, ⟨"assembly_AAAAAAAA", compB⟩, ⟨"rB", ifaceX⟩⟩

/-- An interface with one String-typed parameter, and a system exposing it,
for the usage-model literal counterexample. -/
def ifaceS : Iface :=
  ⟨1, .domain, "IS", [⟨"op", some (.repo .tInt), [⟨"p0", .repo .tStr⟩]⟩]⟩

def asmS : Assembly := ⟨"a", ⟨"c", [], [], []⟩⟩

def sysS : PcmSystem := ⟨"sys", [asmS], [], [⟨"sp", ifaceS, asmS⟩]⟩

/-- A system with two assemblies and no wiring, for the allocation witness. -/
def sysW : PcmSystem :=
  ⟨"sys", [⟨"a1", ⟨"c1", [], [], []⟩⟩, ⟨"a2", ⟨"c2", [], [], []⟩⟩], [], []⟩

/-- A system exposing nothing, for the usage-model witness. -/
def sysE : PcmSystem := ⟨"s", [], [], []⟩

/-- A constructor override with an inverted signature-count range. -/
def invertedOverride : Config → Config := fun c =>
  { c with min_signatures_per_interface := 5, max_signatures_per_interface := 2 }

/-! ## Helper lemmas -/

theorem exceptBind_ok {ε α β : Type} {x : Except ε α} {f : α → Except ε β}
    {b : β} : x >>= f = .ok b ↔ ∃ a, x = .ok a ∧ f a = .ok b := by
  cases x <;> simp [Bind.bind, Except.bind]

theorem getD_self_mem {α : Type} (x : α) (rest : List α) (n : Nat) :
    (x :: rest).getD n x ∈ x :: rest := by
  rcases Nat.lt_or_ge n (x :: rest).length with h | h
  · rw [List.getD_eq_getElem _ _ h]
    exact List.getElem_mem _
  · rw [List.getD_eq_default _ _ h]
    exact List.mem_cons_self x rest

theorem pyChoice_mem {α : Type} {xs : List α} {rng : Rng} {a : α} {rng' : Rng}
    (h : pyChoice xs rng = .ok (a, rng')) : a ∈ xs := by
  cases xs with
  | nil => simp [pyChoice] at h
  | cons x rest =>
    simp only [pyChoice, Except.ok.injEq, Prod.mk.injEq] at h
    rw [← h.1]
    exact getD_self_mem x rest _

theorem sampler_run_total {α : Type} [DecidableEq α] :
    ∀ (n : Nat) (s : UniqueRandomSampler α) (rng : Rng), s.data ≠ [] →
      ∃ r, s.run rng n = .ok r ∧ (r.2.1).data = s.data := by
  intro n
  induction n with
  | zero => intro s rng h; exact ⟨([], s, rng), rfl, rfl⟩
  | succ m ih =>
    intro s rng h
    have hrem : (if s.remaining.isEmpty then s.data else s.remaining) ≠ [] := by
      rcases hE : s.remaining.isEmpty with _ | _
      · simpa [hE] using (List.isEmpty_eq_false.mp hE)
      · simpa [hE] using h
    obtain ⟨y, ys, hys⟩ := List.exists_cons_of_ne_nil hrem
    have hsample : s.sample rng
        = .ok ((y :: ys).getD (rng.next.1 % (y :: ys).length) y,
            ⟨s.data, (y :: ys).erase ((y :: ys).getD (rng.next.1 % (y :: ys).length) y)⟩,
            rng.next.2) := by
      simp only [UniqueRandomSampler.sample, hys, pyChoice]
    obtain ⟨r, hr, hrdata⟩ :=
      ih ⟨s.data, (y :: ys).erase ((y :: ys).getD (rng.next.1 % (y :: ys).length) y)⟩
        rng.next.2 h
    refine ⟨(((y :: ys).getD (rng.next.1 % (y :: ys).length) y) :: r.1, r.2.1, r.2.2),
      ?_, hrdata⟩
    simp only [UniqueRandomSampler.run, hsample, hr]

theorem sampler_run_rotation {α : Type} [DecidableEq α] :
    ∀ (n : Nat) (s : UniqueRandomSampler α) (rng : Rng), s.remaining.Nodup →
      s.remaining.length = n →
      ∃ outs s' rng', s.run rng n = .ok (outs, s', rng')
        ∧ outs.Perm s.remaining ∧ s'.remaining = [] ∧ s'.data = s.data := by
  intro n
  induction n with
  | zero =>
    intro s rng _ hlen
    exact ⟨[], s, rng, rfl, by simp [List.length_eq_zero.mp hlen],
      List.length_eq_zero.mp hlen, rfl⟩
  | succ m ih =>
    intro s rng hnd hlen
    have hne : s.remaining ≠ [] := by
      intro hc; rw [hc] at hlen; simp at hlen
    have hE : s.remaining.isEmpty = false := List.isEmpty_eq_false.mpr hne
    obtain ⟨y, ys, hys⟩ := List.exists_cons_of_ne_nil hne
    set c := (y :: ys).getD (rng.next.1 % (y :: ys).length) y with hc
    have hcm : c ∈ s.remaining := by rw [hys]; exact getD_self_mem y ys _
    have hsample : s.sample rng
        = .ok (c, ⟨s.data, s.remaining.erase c⟩, rng.next.2) := by
      simp only [UniqueRandomSampler.sample, hys, List.isEmpty_cons, if_false,
        Bool.false_eq_true, pyChoice, hc]
    have hlen' : (s.remaining.erase c).length = m := by
      rw [List.length_erase_of_mem hcm, hlen]
      rfl
    obtain ⟨outs, s', rng', hrun, hperm, hrem, hdata⟩ :=
      ih ⟨s.data, s.remaining.erase c⟩ rng.next.2 (hnd.erase c) hlen'
    refine ⟨c :: outs, s', rng', ?_, ?_, hrem, hdata⟩
    · simp only [UniqueRandomSampler.run, hsample, hrun]
    · exact ((hperm.cons c).trans (List.perm_cons_erase hcm).symm)

theorem dictFind_add (k key : Iface) (v : Assembly)
    (m : List (Iface × List Assembly)) :
    dictFind k (add_to_dictionary key v m)
      = if k = key then some (((dictFind k m).getD []) ++ [v])
        else dictFind k m := by
  induction m with
  | nil =>
    by_cases h : k = key
    · subst h; simp [add_to_dictionary, dictFind]
    · simp [add_to_dictionary, dictFind, h, Ne.symm h]
  | cons hd tl ih =>
    obtain ⟨k', vs'⟩ := hd
    by_cases h1 : k' = key
    · subst h1
      by_cases h2 : k = k'
      · subst h2; simp [add_to_dictionary, dictFind]
      · simp [add_to_dictionary, dictFind, h2, Ne.symm h2]
    · by_cases h2 : k = k'
      · subst h2; simp [add_to_dictionary, dictFind, h1]
      · simp [add_to_dictionary, dictFind, h1, h2, Ne.symm h2, ih]

theorem mapInv_nil : mapInv [] := by
  intro k vs h
  simp [dictFind] at h

theorem mapInv_add {m : List (Iface × List Assembly)} {key : Iface}
    {v : Assembly} (hm : mapInv m)
    (hv : ∃ pr ∈ v.component.provided, pr.type = key) :
    mapInv (add_to_dictionary key v m) := by
  intro k vs hfind a ha
  rw [dictFind_add] at hfind
  by_cases h : k = key
  · rw [if_pos h] at hfind
    injection hfind with hvs
    rw [← hvs] at ha
    rcases List.mem_append.mp ha with h1 | h1
    · cases hdm : dictFind k m with
      | none => rw [hdm] at h1; simp at h1
      | some vs0 => rw [hdm] at h1; exact hm k vs0 hdm a h1
    · have hav : a = v := by simpa using h1
      subst hav
      rw [h]
      exact hv
  · rw [if_neg h] at hfind
    exact hm k vs hfind a ha

theorem mapInv_foldl_provided (a : Assembly) :
    ∀ (roles : List ProvidedRole) (m : List (Iface × List Assembly)),
      mapInv m → (∀ role ∈ roles, role ∈ a.component.provided) →
      mapInv (roles.foldl (fun acc role => add_to_dictionary role.type a acc) m) := by
  intro roles
  induction roles with
  | nil => intro m hm _; exact hm
  | cons r rs ih =>
    intro m hm hroles
    simp only [List.foldl_cons]
    exact ih _ (mapInv_add hm ⟨r, hroles r (by simp), rfl⟩)
      (fun role hr => hroles role (by simp [hr]))

theorem mapInv_collectRoles :
    ∀ (asms : List Assembly) (m : List (Iface × List Assembly))
      (p : List (Assembly × ProvidedRole)) (r : List (Assembly × RequiredRole)),
      mapInv m → mapInv (collectRoles asms m p r).1 := by
  intro asms
  induction asms with
  | nil => intro m p r hm; exact hm
  | cons a rest ih =>
    intro m p r hm
    simp only [collectRoles]
    exact ih _ _ _ (mapInv_foldl_provided a a.component.provided m hm fun _ h => h)

theorem mkConnectors_sound {m : List (Iface × List Assembly)} :
    ∀ (reqs : List (Assembly × RequiredRole)) (rng : Rng) res,
      mkConnectors m reqs rng = .ok res →
      ∀ conn ∈ res.1, ∃ providers,
        dictFind conn.requiringRole.type m = some providers
          ∧ conn.fromCtx ∈ providers := by
  intro reqs
  induction reqs with
  | nil =>
    intro rng res h conn hc
    simp only [mkConnectors] at h
    injection h with h
    rw [← h] at hc
    simp at hc
  | cons ar rest ih =>
    intro rng res h conn hc
    obtain ⟨a, r⟩ := ar
    simp only [mkConnectors] at h
    by_cases hskip : r.name = "cpu" ∨ r.name = "hdd"
    · rw [if_pos hskip] at h
      exact ih rng res h conn hc
    · rw [if_neg hskip] at h
      cases hfind : dictFind r.type m with
      | none =>
        simp only [hfind] at h
        exact ih rng res h conn hc
      | some providers =>
        simp only [hfind] at h
        by_cases hpe : providers.isEmpty
        · rw [if_pos hpe] at h
          exact ih rng res h conn hc
        · rw [if_neg hpe] at h
          rw [exceptBind_ok] at h
          obtain ⟨⟨pa, rng1⟩, hchoice, h⟩ := h
          rw [exceptBind_ok] at h
          obtain ⟨⟨restConn, rng2⟩, hrest, h⟩ := h
          injection h with h
          rw [← h] at hc
          simp only [List.mem_cons] at hc
          rcases hc with hceq | hc
          · subst hceq
            exact ⟨providers, hfind, pyChoice_mem hchoice⟩
          · exact ih _ _ hrest conn hc

theorem cons_eraseIdx_perm {α : Type} :
    ∀ (l : List α) (i : Nat) (h : i < l.length),
      (l.get ⟨i, h⟩ :: l.eraseIdx i).Perm l := by
  intro l
  induction l with
  | nil => intro i h; simp at h
  | cons x xs ih =>
    intro i h
    cases i with
    | zero => simp [List.eraseIdx]
    | succ j =>
      have hj : j < xs.length := by simpa using h
      have : (x :: xs).get ⟨j + 1, h⟩ = xs.get ⟨j, hj⟩ := rfl
      rw [this]
      show (xs.get ⟨j, hj⟩ :: x :: xs.eraseIdx j).Perm (x :: xs)
      exact (List.Perm.swap x _ _).trans ((ih j hj).cons x)

theorem pyPick_spec {α : Type} (xs : List α) (d : Nat) (hne : xs ≠ []) :
    ∃ x rest, pyPick xs d = some (x, rest) ∧ (x :: rest).Perm xs
      ∧ rest.length + 1 = xs.length := by
  obtain ⟨y, ys, rfl⟩ := List.exists_cons_of_ne_nil hne
  have hi : d % (y :: ys).length < (y :: ys).length :=
    Nat.mod_lt _ (by simp)
  refine ⟨(y :: ys).get ⟨d % (y :: ys).length, hi⟩,
    (y :: ys).eraseIdx (d % (y :: ys).length), ?_, ?_, ?_⟩
  · simp only [pyPick]
    rw [List.getD_eq_getElem _ _ hi]
    rfl
  · exact cons_eraseIdx_perm _ _ hi
  · exact List.length_eraseIdx_add_one hi

theorem pySampleGo_perm {α : Type} :
    ∀ (n : Nat) (xs : List α) (rng : Rng), n = xs.length →
      (pySampleGo n xs rng).1.Perm xs := by
  intro n
  induction n with
  | zero =>
    intro xs rng h
    rw [List.length_eq_zero.mp h.symm]
    exact List.Perm.refl _
  | succ m ih =>
    intro xs rng h
    have hne : xs ≠ [] := by
      intro hx; rw [hx] at h; simp at h
    obtain ⟨x, rest, hpick, hperm, hlen⟩ := pyPick_spec xs rng.next.1 hne
    have hm : m = rest.length := by omega
    simp only [pySampleGo, hpick]
    exact ((ih rest rng.next.2 hm).cons x).trans hperm

theorem pyShuffle_perm {α : Type} (xs : List α) (rng : Rng) :
    (pyShuffle xs rng).1.Perm xs :=
  pySampleGo_perm xs.length xs rng rfl

theorem pyRandint_ok_bounds {a b : Nat} {rng : Rng} {v : Nat} {rng' : Rng}
    (h : pyRandint a b rng = .ok (v, rng')) : a ≤ b ∧ a ≤ v ∧ v ≤ b := by
  by_cases hab : b < a
  · simp [pyRandint, hab] at h
  · simp only [pyRandint, hab, if_false] at h
    injection h with h
    have hmod : rng.next.1 % (b - a + 1) < b - a + 1 := Nat.mod_lt _ (by omega)
    have hv : v = a + rng.next.1 % (b - a + 1) := by
      have := congrArg Prod.fst h
      simpa using this.symm
    omega

theorem splitGroups_join {α : Type} :
    ∀ (g rem : Nat) (xs : List α) (base : Nat), rem ≤ g →
      base * g + rem = xs.length →
      (splitGroups base g rem xs).flatten = xs := by
  intro g
  induction g with
  | zero =>
    intro rem xs base hle hlen
    have : xs = [] := by
      apply List.length_eq_zero.mp
      omega
    simp [splitGroups, this]
  | succ n ih =>
    intro rem xs base hle hlen
    rw [Nat.mul_succ] at hlen
    simp only [splitGroups]
    by_cases hr : 0 < rem
    · rw [if_pos hr]
      rw [if_pos (by omega : 0 < base + 1)]
      have hlen2 : base * n + (rem - 1) = (xs.drop (base + 1)).length := by
        rw [List.length_drop]
        omega
      rw [List.flatten_cons, ih (rem - 1) _ base (by omega) hlen2]
      exact List.take_append_drop _ _
    · rw [if_neg hr]
      have hrem : rem = 0 := by omega
      simp only [Nat.add_zero]
      by_cases hb : 0 < base
      · rw [if_pos hb]
        have hlen2 : base * n + (rem - 1) = (xs.drop base).length := by
          rw [List.length_drop]
          omega
        rw [List.flatten_cons, ih (rem - 1) _ base (by omega) hlen2]
        exact List.take_append_drop _ _
      · rw [if_neg hb]
        have hb0 : base = 0 := by omega
        subst hb0
        rw [Nat.zero_mul] at hlen
        simp only [List.drop_zero]
        exact ih (rem - 1) xs 0 (by omega) (by rw [Nat.zero_mul]; omega)

theorem splitGroups_sizes {α : Type} :
    ∀ (g rem : Nat) (xs : List α) (base : Nat), rem ≤ g →
      base * g + rem = xs.length →
      ∀ gl ∈ splitGroups base g rem xs,
        0 < gl.length ∧ (gl.length = base ∨ gl.length = base + 1) := by
  intro g
  induction g with
  | zero => intro rem xs base _ _ gl hgl; simp [splitGroups] at hgl
  | succ n ih =>
    intro rem xs base hle hlen
    rw [Nat.mul_succ] at hlen
    intro gl hgl
    simp only [splitGroups] at hgl
    by_cases hr : 0 < rem
    · rw [if_pos hr, if_pos (by omega : 0 < base + 1)] at hgl
      rcases List.mem_cons.mp hgl with h | h
      · subst h
        rw [List.length_take]
        constructor
        · omega
        · right; omega
      · exact ih (rem - 1) _ base (by omega)
          (by rw [List.length_drop]; omega) gl h
    · rw [if_neg hr] at hgl
      have hrem : rem = 0 := by omega
      simp only [Nat.add_zero] at hgl
      by_cases hb : 0 < base
      · rw [if_pos hb] at hgl
        rcases List.mem_cons.mp hgl with h | h
        · subst h
          rw [List.length_take]
          constructor
          · omega
          · left; omega
        · exact ih (rem - 1) _ base (by omega)
            (by rw [List.length_drop]; omega) gl h
      · rw [if_neg hb] at hgl
        have hb0 : base = 0 := by omega
        subst hb0
        rw [Nat.zero_mul] at hlen
        simp only [List.drop_zero] at hgl
        exact ih (rem - 1) xs 0 (by omega) (by rw [Nat.zero_mul]; omega) gl hgl

theorem splitGroups_count {α : Type} :
    ∀ (g rem : Nat) (xs : List α) (base : Nat),
      (splitGroups base g rem xs).length ≤ g := by
  intro g
  induction g with
  | zero => intro rem xs base; simp [splitGroups]
  | succ n ih =>
    intro rem xs base
    simp only [splitGroups]
    by_cases hs : 0 < base + (if 0 < rem then 1 else 0)
    · rw [if_pos hs]
      simpa using Nat.succ_le_succ (ih (rem - 1) _ base)
    · rw [if_neg hs]
      exact (ih (rem - 1) _ base).trans (by omega)

theorem mkAllocationCtxs_groups (containers : List String) :
    ∀ (groups : List (List Assembly)) (i : Nat) (rng : Rng),
      (∀ gl ∈ groups, ¬ gl.isEmpty) → i + groups.length ≤ containers.length →
      (mkAllocationCtxs containers i groups rng).1.map AllocationCtx.group
        = groups := by
  intro groups
  induction groups with
  | nil => intro i rng _ _; simp [mkAllocationCtxs]
  | cons g gs ih =>
    intro i rng hne hlen
    have hi : i < containers.length := by
      simp only [List.length_cons] at hlen
      omega
    have hg : ¬ g.isEmpty := hne g (by simp)
    simp only [mkAllocationCtxs]
    rw [if_pos (⟨hi, hg⟩ : i < containers.length ∧ ¬ g.isEmpty = true)]
    simp only [List.map_cons, AllocationCtx.group]
    rw [ih (i + 1) _ (fun gl h => hne gl (by simp [h])) (by simp at hlen ⊢; omega)]

theorem usageLiteral_kind {cfg : Config} {t : TypeRef} {rng : Rng} {l : Literal}
    {rng' : Rng} (h : usageLiteral cfg t rng = .ok (l, rng')) :
    literalKind l = declaredKind t := by
  simp only [usageLiteral, bind, Except.bind] at h
  split at h
  · rename_i hteq
    split at h
    · exact absurd h (by simp)
    · simp only [Except.ok.injEq, Prod.mk.injEq] at h
      rw [← h.1]
      cases t with
      | repo pt => cases pt <;> first | rfl | simp [typeEnumName] at hteq
      | stdInt => rfl
      | stdDouble => simp [typeEnumName] at hteq
  · split at h
    · rename_i hne1 hteq
      simp only [Except.ok.injEq, Prod.mk.injEq] at h
      rw [← h.1]
      cases t with
      | repo pt => cases pt <;> first | rfl | simp [typeEnumName] at hteq
      | stdInt => simp [typeEnumName] at hteq
      | stdDouble => rfl
    · split at h
      · rename_i hne1 hne2 hteq
        split at h
        · exact absurd h (by simp)
        · simp only [Except.ok.injEq, Prod.mk.injEq] at h
          rw [← h.1]
          cases t with
          | repo pt => cases pt <;> first | rfl | simp [typeEnumName] at hteq
          | stdInt => simp [typeEnumName] at hteq
          | stdDouble => simp [typeEnumName] at hteq
      · rename_i hne1 hne2 hne3
        simp only [Except.ok.injEq, Prod.mk.injEq] at h
        rw [← h.1]
        cases t with
        | repo pt =>
          cases pt with
          | tInt => exact (hne1 rfl).elim
          | tStr => rfl
          | tBool => exact (hne3 rfl).elim
          | tDouble => exact (hne2 rfl).elim
        | stdInt => exact (hne1 rfl).elim
        | stdDouble => exact (hne2 rfl).elim

theorem usageLiteral_string (cfg : Config) (rng : Rng) :
    usageLiteral cfg (.repo .tStr) rng = .ok (.str "1", rng) := by
  rfl


theorem setToList_length {α : Type} [DecidableEq α] (ord : Bool)
    (a b : List α) :
    (setToList ord a b).length = (a.filter fun x => ¬ x ∈ b).length := by
  simp only [setToList]
  split
  · exact List.length_reverse _
  · rfl

theorem mkComponentRoles_total (pre : String) (guard : Bool) :
    ∀ (n : Nat) (s : UniqueRandomSampler Iface) (rng : Rng),
      (s.data ≠ [] ∨ n = 0 ∨ guard = false) →
      ∃ out, mkComponentRoles pre guard s n rng = .ok out := by
  intro n
  induction n with
  | zero => intro s rng _; exact ⟨([], s, rng), rfl⟩
  | succ m ih =>
    intro s rng h
    cases hguard : guard with
    | false =>
      obtain ⟨out, hout⟩ := ih s rng (.inr (.inr hguard))
      rw [hguard] at hout
      refine ⟨(out.1, out.2.1, out.2.2), ?_⟩
      simp only [mkComponentRoles, Bool.false_eq_true, if_false, bind,
        Except.bind, hout]
    | true =>
      have hd : s.data ≠ [] := by
        rcases h with h | h | h
        · exact h
        · omega
        · rw [hguard] at h; simp at h
      have hrem : (if s.remaining.isEmpty then s.data else s.remaining) ≠ [] := by
        rcases hE : s.remaining.isEmpty with _ | _
        · simpa [hE] using (List.isEmpty_eq_false.mp hE)
        · simpa [hE] using hd
      obtain ⟨y, ys, hys⟩ := List.exists_cons_of_ne_nil hrem
      have hsample : s.sample rng
          = .ok ((y :: ys).getD (rng.next.1 % (y :: ys).length) y,
              ⟨s.data, (y :: ys).erase
                ((y :: ys).getD (rng.next.1 % (y :: ys).length) y)⟩,
              rng.next.2) := by
        simp only [UniqueRandomSampler.sample, hys, pyChoice]
      obtain ⟨out, hout⟩ :=
        ih ⟨s.data, (y :: ys).erase
            ((y :: ys).getD (rng.next.1 % (y :: ys).length) y)⟩
          (random_name pre rng.next.2).2 (.inl hd)
      rw [hguard] at hout
      refine ⟨(((random_name pre rng.next.2).1,
        (y :: ys).getD (rng.next.1 % (y :: ys).length) y) :: out.1,
        out.2.1, out.2.2), ?_⟩
      simp only [mkComponentRoles, if_true, bind, Except.bind, hsample, hout]

theorem mkComponents_succ_err (cfg : Config) (ord : Bool)
    (interfaces : List Iface) (s : UniqueRandomInterfaceSampler Iface)
    (n : Nat) (rng : Rng) :
    ∃ e, mkComponents cfg ord interfaces s (n + 1) rng = .error e := by
  simp only [mkComponents, bind, Except.bind]
  cases h1 : pyRandint
      (min cfg.min_provided_interfaces_per_component
        (max 1 (min interfaces.length (pyRoundHalf interfaces.length))))
      (max 1 (min interfaces.length (pyRoundHalf interfaces.length))) rng with
  | error e => exact ⟨e, by simp only [h1]⟩
  | ok v1 =>
    cases h2 : pyRandint
        (min cfg.min_required_interfaces_per_component
          (max 1 (min interfaces.length (pyRoundHalf interfaces.length))))
        (max 1 (min interfaces.length (pyRoundHalf interfaces.length))) v1.2 with
    | error e => exact ⟨e, by simp only [h1, h2]⟩
    | ok v2 =>
      cases h3 : s.sample ord v1.1 v2.1 v2.2 with
      | error e => exact ⟨e, by simp only [h1, h2, h3]⟩
      | ok v3 =>
        obtain ⟨o1, ho1⟩ := mkComponentRoles_total "provided"
          (decide (interfaces ≠ [])) v3.1.1.length
          (UniqueRandomSampler.init v3.1.1)
          (random_name "component" v3.2.2).2
          (by cases v3.1.1 with
            | nil => exact .inr (.inl rfl)
            | cons x xs => exact .inl (by simp [UniqueRandomSampler.init]))
        obtain ⟨o2, ho2⟩ := mkComponentRoles_total "required"
          (decide (interfaces ≠ [])) v3.1.2.length
          (UniqueRandomSampler.init v3.1.2) o1.2.2
          (by cases v3.1.2 with
            | nil => exact .inr (.inl rfl)
            | cons x xs => exact .inl (by simp [UniqueRandomSampler.init]))
        refine ⟨"AttributeError: _PCMStandardDefinitions object has no attribute get_cpu_interface", ?_⟩
        simp only [h1, h2, h3, ho1, ho2]

theorem mkComponents_succ_ord (cfg : Config) (ord₁ ord₂ : Bool)
    (interfaces : List Iface) (s : UniqueRandomInterfaceSampler Iface)
    (n : Nat) (rng : Rng) :
    mkComponents cfg ord₁ interfaces s (n + 1) rng
      = mkComponents cfg ord₂ interfaces s (n + 1) rng := by
  simp only [mkComponents, bind, Except.bind]
  cases h1 : pyRandint
      (min cfg.min_provided_interfaces_per_component
        (max 1 (min interfaces.length (pyRoundHalf interfaces.length))))
      (max 1 (min interfaces.length (pyRoundHalf interfaces.length))) rng with
  | error e => simp only [h1]
  | ok v1 =>
    simp only [h1]
    cases h2 : pyRandint
        (min cfg.min_required_interfaces_per_component
          (max 1 (min interfaces.length (pyRoundHalf interfaces.length))))
        (max 1 (min interfaces.length (pyRoundHalf interfaces.length))) v1.2 with
    | error e => simp only [h2]
    | ok v2 =>
      simp only [h2, UniqueRandomInterfaceSampler.sample, bind, Except.bind]
      by_cases hg : s.data.length < v1.1 + v2.1
      · rw [if_pos hg, if_pos hg]
      · rw [if_neg hg, if_neg hg]
        cases h3 : pySample
            (if s.remaining_provided.length < v1.1 then s.data
              else s.remaining_provided) v1.1 v2.2 with
        | error e => simp only [h3]
        | ok v3 =>
          simp only [h3, setToList_length]
          by_cases hr :
            (List.filter (fun x => decide (x ∉ v3.1)) s.remaining).length < v2.1
          · simp only [hr, if_true, pySample, setToList_length]
            by_cases hs :
              (List.filter (fun x => decide (x ∉ v3.1)) s.data).length < v2.1
            · simp only [hs, if_true]
            · simp only [hs, if_false]
              trans (Except.error "AttributeError: _PCMStandardDefinitions object has no attribute get_cpu_interface" :
                Except String
                  (List Component × UniqueRandomInterfaceSampler Iface × Rng))
              ·
                generalize (random_name "component"
                  (pySampleGo v2.1 (setToList ord₁ s.data v3.1) v3.2).2).2 = rq
                generalize (pySampleGo v2.1 (setToList ord₁ s.data v3.1) v3.2).1 = lrl
                obtain ⟨o1, ho1⟩ := mkComponentRoles_total "provided"
                  (decide (interfaces ≠ [])) v3.1.length
                  (UniqueRandomSampler.init v3.1) rq
                  (by cases hv : v3.1 with
                    | nil => exact .inr (.inl rfl)
                    | cons a as => exact .inl (by simp [UniqueRandomSampler.init]))
                simp only [ho1]
                obtain ⟨o2, ho2⟩ := mkComponentRoles_total "required"
                  (decide (interfaces ≠ [])) lrl.length
                  (UniqueRandomSampler.init lrl) o1.2.2
                  (by cases hv : lrl with
                    | nil => exact .inr (.inl rfl)
                    | cons a as => exact .inl (by simp [UniqueRandomSampler.init]))
                simp only [ho2]
              · symm
                generalize (random_name "component"
                  (pySampleGo v2.1 (setToList ord₂ s.data v3.1) v3.2).2).2 = rq
                generalize (pySampleGo v2.1 (setToList ord₂ s.data v3.1) v3.2).1 = lrl
                obtain ⟨o1, ho1⟩ := mkComponentRoles_total "provided"
                  (decide (interfaces ≠ [])) v3.1.length
                  (UniqueRandomSampler.init v3.1) rq
                  (by cases hv : v3.1 with
                    | nil => exact .inr (.inl rfl)
                    | cons a as => exact .inl (by simp [UniqueRandomSampler.init]))
                simp only [ho1]
                obtain ⟨o2, ho2⟩ := mkComponentRoles_total "required"
                  (decide (interfaces ≠ [])) lrl.length
                  (UniqueRandomSampler.init lrl) o1.2.2
                  (by cases hv : lrl with
                    | nil => exact .inr (.inl rfl)
                    | cons a as => exact .inl (by simp [UniqueRandomSampler.init]))
                simp only [ho2]
          · simp only [hr, if_false, pySample, setToList_length]
            ·
              trans (Except.error "AttributeError: _PCMStandardDefinitions object has no attribute get_cpu_interface" :
                Except String
                  (List Component × UniqueRandomInterfaceSampler Iface × Rng))
              ·
                generalize (random_name "component"
                  (pySampleGo v2.1 (setToList ord₁ s.remaining v3.1) v3.2).2).2 = rq
                generalize (pySampleGo v2.1 (setToList ord₁ s.remaining v3.1) v3.2).1 = lrl
                obtain ⟨o1, ho1⟩ := mkComponentRoles_total "provided"
                  (decide (interfaces ≠ [])) v3.1.length
                  (UniqueRandomSampler.init v3.1) rq
                  (by cases hv : v3.1 with
                    | nil => exact .inr (.inl rfl)
                    | cons a as => exact .inl (by simp [UniqueRandomSampler.init]))
                simp only [ho1]
                obtain ⟨o2, ho2⟩ := mkComponentRoles_total "required"
                  (decide (interfaces ≠ [])) lrl.length
                  (UniqueRandomSampler.init lrl) o1.2.2
                  (by cases hv : lrl with
                    | nil => exact .inr (.inl rfl)
                    | cons a as => exact .inl (by simp [UniqueRandomSampler.init]))
                simp only [ho2]
              · symm
                generalize (random_name "component"
                  (pySampleGo v2.1 (setToList ord₂ s.remaining v3.1) v3.2).2).2 = rq
                generalize (pySampleGo v2.1 (setToList ord₂ s.remaining v3.1) v3.2).1 = lrl
                obtain ⟨o1, ho1⟩ := mkComponentRoles_total "provided"
                  (decide (interfaces ≠ [])) v3.1.length
                  (UniqueRandomSampler.init v3.1) rq
                  (by cases hv : v3.1 with
                    | nil => exact .inr (.inl rfl)
                    | cons a as => exact .inl (by simp [UniqueRandomSampler.init]))
                simp only [ho1]
                obtain ⟨o2, ho2⟩ := mkComponentRoles_total "required"
                  (decide (interfaces ≠ [])) lrl.length
                  (UniqueRandomSampler.init lrl) o1.2.2
                  (by cases hv : lrl with
                    | nil => exact .inr (.inl rfl)
                    | cons a as => exact .inl (by simp [UniqueRandomSampler.init]))
                simp only [ho2]

theorem generate_repository_comp_err (cfg : Config) (ord : Bool)
    (ni nc : Nat) (rng : Rng) (hnc : 1 ≤ nc) :
    ∃ e, generate_repository cfg ord ni nc rng = .error e := by
  obtain ⟨k, rfl⟩ : ∃ k, nc = k + 1 := ⟨nc - 1, by omega⟩
  simp only [generate_repository, bind, Except.bind]
  cases h1 : mkInterfaces cfg ni 1 (random_name "repository" rng).2 with
  | error e => exact ⟨e, by simp only [h1]⟩
  | ok v1 =>
    obtain ⟨e, he⟩ := mkComponents_succ_err cfg ord v1.1
      (UniqueRandomInterfaceSampler.init v1.1) k v1.2
    exact ⟨e, by simp only [h1, he]⟩

theorem generate_repository_ok_nil {cfg : Config} {ord : Bool}
    {ni nc : Nat} {rng : Rng} {repo : Repository} {rng' : Rng}
    (hok : generate_repository cfg ord ni nc rng = .ok (repo, rng')) :
    repo.components = [] := by
  cases nc with
  | zero =>
    simp only [generate_repository, mkComponents, bind, Except.bind] at hok
    cases h1 : mkInterfaces cfg ni 1 (random_name "repository" rng).2 with
    | error e =>
      simp only [h1] at hok
      exact absurd hok (by simp)
    | ok v1 =>
      simp only [h1, Except.ok.injEq, Prod.mk.injEq] at hok
      rw [← hok.1]
  | succ k =>
    obtain ⟨e, he⟩ := generate_repository_comp_err cfg ord ni (k + 1) rng
      (by omega)
    rw [he] at hok
    exact absurd hok (by simp)

theorem generate_repository_ord (cfg : Config) (ord₁ ord₂ : Bool)
    (ni nc : Nat) (rng : Rng) :
    generate_repository cfg ord₁ ni nc rng
      = generate_repository cfg ord₂ ni nc rng := by
  simp only [generate_repository, bind, Except.bind]
  cases h1 : mkInterfaces cfg ni 1 (random_name "repository" rng).2 with
  | error e => simp only [h1]
  | ok v1 =>
    simp only [h1]
    cases nc with
    | zero => rfl
    | succ k => rw [mkComponents_succ_ord cfg ord₁ ord₂ v1.1 _ k v1.2]

/-! ## Claim theorems -/

/-- C1 counterexample: over the one-element universe, `sample(1, 1)` does
not return both sets equal to the universe — it raises `ValueError`, so the
claim that the call returns with overlapping sets is false. -/
theorem C1_counterexample :
    UniqueRandomInterfaceSampler.sample false
      (UniqueRandomInterfaceSampler.init [(⟨1, .domain, "I", []⟩ : Iface)]) 1 1 ⟨[]⟩
      = .error "2 * n cannot be greater than the size of the data set" := by
  decide

example : True := by trivial

/-- C1 (amended): whenever `countProvided + countRequired` exceeds the
universe of `UniqueRandomInterfaceSampler`, `sample` raises `ValueError`
instead of returning overlapping sets. -/
theorem C1_interface_sampler_raises {α : Type} [DecidableEq α] (ord : Bool)
    (s : UniqueRandomInterfaceSampler α) (cp cr : Nat) (rng : Rng)
    (h : s.data.length < cp + cr) :
    s.sample ord cp cr rng
      = .error "2 * n cannot be greater than the size of the data set" := by
  unfold UniqueRandomInterfaceSampler.sample
  rw [if_pos h]

/-- C1 witness: the amended theorem applied at the one-element universe
with counts (1, 1). -/
theorem C1_witness :
    ((UniqueRandomInterfaceSampler.init [ifaceX]).data.length < 1 + 1) ∧
    UniqueRandomInterfaceSampler.sample false
      (UniqueRandomInterfaceSampler.init [ifaceX]) 1 1 ⟨[]⟩
      = .error "2 * n cannot be greater than the size of the data set" :=
  ⟨by decide, C1_interface_sampler_raises false (UniqueRandomInterfaceSampler.init [ifaceX]) 1 1 ⟨[]⟩
    (by decide)⟩

/-- C2: with zero interfaces and at least one component, and any
configuration demanding at least one provided role (the default does),
`generate_repository` raises the sampler's `ValueError` instead of
producing components with only infrastructure roles. -/
theorem C2_zero_interfaces_raises (cfg : Config) (ord : Bool) (nc : Nat) (rng : Rng)
    (hmin : 1 ≤ cfg.min_provided_interfaces_per_component) (hnc : 1 ≤ nc) :
    generate_repository cfg ord 0 nc rng
      = .error "2 * n cannot be greater than the size of the data set" := by
  obtain ⟨k, rfl⟩ : ∃ k, nc = k + 1 := ⟨nc - 1, by omega⟩
  have hm : min cfg.min_provided_interfaces_per_component
      (max 1 (min (List.length ([] : List Iface)) (pyRoundHalf (List.length ([] : List Iface))))) = 1 := by
    simp [pyRoundHalf]
    omega
  simp only [generate_repository, mkInterfaces, mkComponents, random_name,
    UniqueRandomInterfaceSampler.init]
  simp only [Except.bind, bind, Except.ok.injEq, List.length_nil, pyRoundHalf]
  have h2 : cfg.min_provided_interfaces_per_component ⊓ 1 = 1 := by omega
  have h3 : ¬ (1 : Nat) < cfg.min_required_interfaces_per_component ⊓ 1 := by
    have := Nat.min_le_right cfg.min_required_interfaces_per_component 1
    omega
  have h4 : ¬ (1 : Nat) < 1 := by omega
  have h5 : ∀ x : Nat, (0 : Nat) < 1 + x := fun x => by omega
  simp [pyRandint, UniqueRandomInterfaceSampler.sample, h2, h3, h4, h5, Nat.mod_one]

/-- C2 witness: the failing input `num_interfaces = 0`,
`num_components = 1` under the default configuration. -/
theorem C2_witness :
    (1 ≤ defaultConfig.min_provided_interfaces_per_component ∧ (1:Nat) ≤ 1) ∧
    generate_repository defaultConfig false 0 1 ⟨[]⟩
      = .error "2 * n cannot be greater than the size of the data set" :=
  ⟨⟨by decide, by decide⟩, C2_zero_interfaces_raises defaultConfig false 1 ⟨[]⟩ (by decide) (by decide)⟩

/-- C3 counterexample: constructing a generator with an inverted signature
range is not rejected — the constructor returns the inverted configuration
unvalidated, and the `ValueError` only surfaces later inside
`generate_repository`, i.e. mid-run rather than before generation. -/
theorem C3_counterexample :
    (initModelGenerator (some 0) invertedOverride (freshProcess ⟨[]⟩)).2
      = invertedOverride defaultConfig ∧
    generate_repository (invertedOverride defaultConfig) false 1 1 (seedRng 0)
      = .error "empty range for randrange" := by
  constructor
  · rfl
  · decide

/-- C3 (amended): the constructor performs no validation (it returns
exactly the overridden configuration for every input), and an inverted
signature range makes `generate_repository` fail mid-run with the
`ValueError` of `random.randint` once the first interface is created. -/
theorem C3_no_validation_midrun_failure :
    (∀ (seed : Option Nat) (ov : Config → Config) (p : PyProcess),
      (initModelGenerator seed ov p).2 = ov p.globalConfig) ∧
    (∀ (cfg : Config) (ord : Bool) (ni nc : Nat) (rng : Rng),
      cfg.max_signatures_per_interface < cfg.min_signatures_per_interface →
      1 ≤ ni →
      generate_repository cfg ord ni nc rng
        = .error "empty range for randrange") := by
  constructor
  · intro seed ov p
    rfl
  · intro cfg ord ni nc rng hinv hni
    obtain ⟨k, rfl⟩ : ∃ k, ni = k + 1 := ⟨ni - 1, by omega⟩
    simp only [generate_repository, mkInterfaces, random_name]
    simp [Except.bind, bind, pyRandint, hinv]

/-- C3 witness: the amended theorem applied to the default configuration
with the signature range inverted to [5, 2]. -/
theorem C3_witness :
    ((invertedOverride defaultConfig).max_signatures_per_interface
        < (invertedOverride defaultConfig).min_signatures_per_interface
      ∧ (1:Nat) ≤ 1) ∧
    generate_repository (invertedOverride defaultConfig) false 1 1 ⟨[]⟩
      = .error "empty range for randrange" :=
  ⟨⟨by decide, by decide⟩,
    C3_no_validation_midrun_failure.2 (invertedOverride defaultConfig) false 1 1 ⟨[]⟩ (by decide) (by decide)⟩

/-- C4: every connector `generate_system` creates joins a required role to
a providing assembly whose component has a provided role of exactly the
required role's interface. -/
theorem C4_connector_interfaces_match (cfg : Config) (components : List Component) (rng : Rng)
    (sys : PcmSystem) (rng' : Rng)
    (hok : generate_system cfg components rng = .ok (sys, rng'))
    (conn : Connector) (hconn : conn ∈ sys.connectors) :
    ∃ pr ∈ conn.fromCtx.component.provided,
      pr.type = conn.requiringRole.type := by
  simp only [generate_system, bind, Except.bind] at hok
  split at hok
  · simp only [Except.ok.injEq, Prod.mk.injEq] at hok
    rw [← hok.1] at hconn
    simp at hconn
  · split at hok
    · exact absurd hok (by simp)
    · split at hok
      · exact absurd hok (by simp)
      · rename_i x1 v1 conres hconres randres hrandres
        have hmi := mapInv_collectRoles
          (mkAssemblies (List.filter
            (fun c => decide ¬(c.provided = [] ∧ c.required = [] ∧ c.seffs = []))
            components) (random_name "system" rng).2).1 [] [] [] mapInv_nil
        split at hok
        · simp only [Except.ok.injEq, Prod.mk.injEq] at hok
          rw [← hok.1] at hconn
          have hc2 : conn ∈ v1.1 := hconn
          obtain ⟨providers, hfind, hmem⟩ := mkConnectors_sound _ _ _ conres conn hc2
          exact hmi _ _ hfind conn.fromCtx hmem
        · split at hok
          · exact absurd hok (by simp)
          · simp only [Except.ok.injEq, Prod.mk.injEq] at hok
            rw [← hok.1] at hconn
            have hc2 : conn ∈ v1.1 := hconn
            obtain ⟨providers, hfind, hmem⟩ := mkConnectors_sound _ _ _ conres conn hc2
            exact hmi _ _ hfind conn.fromCtx hmem

/-- C4 witness: a two-component repository where one component provides
and the other requires the same interface; the generated connector
satisfies the invariant. -/
theorem C4_witness :
    ∃ sys rng', generate_system defaultConfig [compA, compB] ⟨[]⟩ = .ok (sys, rng')
      ∧ connW ∈ sys.connectors ∧
      ∃ pr ∈ connW.fromCtx.component.provided,
        pr.type = connW.requiringRole.type := by
  refine ⟨_, _, rfl, by decide, ?_⟩
  exact C4_connector_interfaces_match defaultConfig [compA, compB] ⟨[]⟩ _ _ rfl connW (by decide)

/-- C5: for a system with at least one assembly and at least one
container, every successfully generated allocation partitions the
assemblies exactly (the concatenation of the groups is a permutation of
the assembly list) with any two group sizes differing by at most 1. -/
theorem C5_allocation_partition (cfg : Config) (containers : List String) (system : PcmSystem)
    (rng : Rng) (alloc : Allocation) (rng' : Rng)
    (hc : containers ≠ []) (ha : system.assemblies ≠ [])
    (hok : generate_allocation cfg containers system rng = .ok (alloc, rng')) :
    ((alloc.contexts.map AllocationCtx.group).flatten).Perm system.assemblies ∧
    ∀ g1 ∈ alloc.contexts.map AllocationCtx.group,
      ∀ g2 ∈ alloc.contexts.map AllocationCtx.group,
        g1.length ≤ g2.length + 1 := by
  simp only [generate_allocation, bind, Except.bind] at hok
  split at hok
  · rename_i hemp
    exact absurd (List.isEmpty_iff.mp hemp) hc
  · split at hok
    · rename_i hemp
      exact absurd (List.isEmpty_iff.mp hemp) ha
    · split at hok
      · exact absurd hok (by simp)
      · rename_i xx rr hrand
        split at hok
        · exact absurd hok (by simp)
        · rename_i hgz
          simp only [Except.ok.injEq, Prod.mk.injEq] at hok
          obtain ⟨⟨hmin, hlo, hhi⟩⟩ := And.intro (pyRandint_ok_bounds hrand) True.intro
          set g := max cfg.min_allocation_groups rr.1 with hgdef
          set shuffled :=
            (pyShuffle system.assemblies (rr.2)).1 with hshufdef
          have hgr : g = rr.1 := max_eq_right hlo
          have hgpos : 0 < g := Nat.pos_of_ne_zero hgz
          have hglec : g ≤ containers.length := by
            rw [hgr]
            exact hhi.trans (Nat.min_le_left _ _)
          have hperm : shuffled.Perm system.assemblies :=
            pyShuffle_perm _ _
          have hsl : shuffled.length = system.assemblies.length :=
            hperm.length_eq
          have hrem_le : shuffled.length % g ≤ g :=
            le_of_lt (Nat.mod_lt _ hgpos)
          have hinv : (shuffled.length / g) * g + shuffled.length % g
              = shuffled.length := by
            rw [Nat.mul_comm]
            exact Nat.div_add_mod _ _
          have hjoin := splitGroups_join g (shuffled.length % g) shuffled
            (shuffled.length / g) hrem_le hinv
          have hsizes := splitGroups_sizes g (shuffled.length % g) shuffled
            (shuffled.length / g) hrem_le hinv
          have hcount := splitGroups_count (α := Assembly) g
            (shuffled.length % g) shuffled (shuffled.length / g)
          have hne : ∀ gl ∈ splitGroups (shuffled.length / g) g
              (shuffled.length % g) shuffled, ¬ gl.isEmpty = true := by
            intro gl hgl hemp
            have := (hsizes gl hgl).1
            rw [List.isEmpty_iff.mp hemp] at this
            simp at this
          have hmap := mkAllocationCtxs_groups containers
            (splitGroups (shuffled.length / g) g (shuffled.length % g) shuffled)
            0 ((pyShuffle system.assemblies rr.2).2) hne
            (by simpa using hcount.trans hglec)
          rw [← hok.1]
          constructor
          · rw [hmap, hjoin]
            exact hperm
          · intro g1 hg1 g2 hg2
            rw [hmap] at hg1 hg2
            obtain ⟨_, h1⟩ := hsizes g1 hg1
            obtain ⟨_, h2⟩ := hsizes g2 hg2
            omega

/-- C5 witness: the default single-container environment with a
two-assembly system. -/
theorem C5_witness :
    (resource_containers ≠ [] ∧ sysW.assemblies ≠ []) ∧
    ∃ alloc rng',
      generate_allocation defaultConfig resource_containers sysW ⟨[]⟩
        = .ok (alloc, rng') ∧
      (((alloc.contexts.map AllocationCtx.group).flatten).Perm sysW.assemblies ∧
      ∀ g1 ∈ alloc.contexts.map AllocationCtx.group,
        ∀ g2 ∈ alloc.contexts.map AllocationCtx.group,
          g1.length ≤ g2.length + 1) := by
  refine ⟨⟨by decide, by decide⟩, _, _, rfl, ?_⟩
  exact C5_allocation_partition defaultConfig resource_containers sysW ⟨[]⟩ _ _
    (by decide) (by decide) rfl

/-- C6: over a non-empty duplicate-free pool, `UniqueRandomSampler` never
raises for any number of calls, and its first `|pool|` outputs are a
permutation of the pool (no element repeats before every element has been
returned), after which the remaining pool is empty and the next call
starts a fresh rotation. -/
theorem C6_unique_rotation_sampler {α : Type} [DecidableEq α] (data : List α) (rng : Rng)
    (hne : data ≠ []) (hnd : data.Nodup) :
    (∀ (n : Nat) (rng₀ : Rng), ∃ r, (UniqueRandomSampler.init data).run rng₀ n = .ok r) ∧
    (∃ outs s' rng', (UniqueRandomSampler.init data).run rng data.length = .ok (outs, s', rng')
      ∧ outs.Perm data ∧ s'.remaining = [] ∧ s'.data = data) := by
  constructor
  · intro n rng₀
    obtain ⟨r, hr, _⟩ := sampler_run_total n (UniqueRandomSampler.init data) rng₀ hne
    exact ⟨r, hr⟩
  · exact sampler_run_rotation data.length (UniqueRandomSampler.init data) rng hnd rfl

/-- C6 witness: the pool [1, 2, 3]. -/
theorem C6_witness :
    (([1, 2, 3] : List Nat) ≠ [] ∧ ([1, 2, 3] : List Nat).Nodup) ∧
    ((∀ (n : Nat) (rng₀ : Rng),
        ∃ r, (UniqueRandomSampler.init [1, 2, 3]).run rng₀ n = .ok r) ∧
      (∃ outs s' rng',
        (UniqueRandomSampler.init [1, 2, 3]).run ⟨[0, 1, 2]⟩ 3 = .ok (outs, s', rng')
          ∧ outs.Perm [1, 2, 3] ∧ s'.remaining = [] ∧ s'.data = [1, 2, 3])) :=
  ⟨⟨by decide, by decide⟩, C6_unique_rotation_sampler [1, 2, 3] ⟨[0, 1, 2]⟩ (by decide) (by decide)⟩

/-- C7: a system without exposed roles yields an empty usage model (no
scenario) and no error. -/
theorem C7_empty_usage_model (cfg : Config) (system : PcmSystem) (rng : Rng)
    (h : system.exposed = []) :
    ∃ u rng', generate_usage_model cfg system rng = .ok (u, rng')
      ∧ u.scenarios = [] := by
  refine ⟨⟨(random_name "usage" rng).1, []⟩, (random_name "usage" rng).2, ?_, rfl⟩
  simp [generate_usage_model, h, Except.bind, bind]

/-- C7 witness: a concrete system exposing nothing. -/
theorem C7_witness :
    sysE.exposed = [] ∧
    ∃ u rng', generate_usage_model defaultConfig sysE ⟨[]⟩ = .ok (u, rng')
      ∧ u.scenarios = [] :=
  ⟨rfl, C7_empty_usage_model defaultConfig sysE ⟨[]⟩ rfl⟩

/-- C8 counterexample: in a generated usage model, the literal filled in
for a String-typed parameter is the constant string "1", whose length 1
lies below the configured minimum string length 5 — the claimed
length-in-range synthesis rule does not hold at the usage-model site. -/
theorem C8_counterexample :
    ∃ u rng', generate_usage_model defaultConfig sysS ⟨[]⟩ = .ok (u, rng') ∧
      (u.scenarios.map fun sc => sc.calls.map EntryCall.args)
        = [[[("p0", Literal.str "1")]]] ∧
      ("1" : String).length < defaultConfig.string_param_min_length := by
  refine ⟨_, _, rfl, ?_, by decide⟩
  decide

/-- C8 (amended): no SEFF-site ArgumentLiteral is ever generated by the
staged source — `generate_repository` raises for every
`num_components >= 1` (the AttributeError of the missing
`get_cpu_interface`, or an earlier sampler error), and any run that does
return a repository has zero components — while at the usage-model
entry-call site every literal's kind matches the declared PrimitiveType of
its parameter, but String parameters always receive the constant literal
"1" rather than a random alphanumeric string with length in the
configured range. -/
theorem C8_literal_types :
    (∀ (cfg : Config) (ord : Bool) (ni nc : Nat) (rng : Rng), 1 ≤ nc →
      ∃ e, generate_repository cfg ord ni nc rng = .error e) ∧
    (∀ (cfg : Config) (ord : Bool) (ni nc : Nat) (rng : Rng)
      (repo : Repository) (rng' : Rng),
      generate_repository cfg ord ni nc rng = .ok (repo, rng') →
      repo.components = []) ∧
    (∀ (cfg : Config) (t : TypeRef) (rng : Rng) (l : Literal) (rng' : Rng),
      usageLiteral cfg t rng = .ok (l, rng') → literalKind l = declaredKind t) ∧
    (∀ (cfg : Config) (rng : Rng),
      usageLiteral cfg (.repo .tStr) rng = .ok (.str "1", rng)) :=
  ⟨generate_repository_comp_err,
    fun _ _ _ _ _ _ _ hok => generate_repository_ok_nil hok,
    fun _ _ _ _ _ h => usageLiteral_kind h,
    usageLiteral_string⟩

/-- C8 witness: the repository stage fails on a concrete two-interface,
one-component input, and the usage-site synthesizer kind-matches a
concrete Boolean parameter. -/
theorem C8_witness :
    ((1 : Nat) ≤ 1 ∧
      usageLiteral defaultConfig (.repo .tBool) ⟨[0]⟩ = .ok (.bool true, ⟨[]⟩)) ∧
    ((∃ e, generate_repository cfgSmall false 2 1 ⟨[]⟩ = .error e) ∧
      literalKind (.bool true) = declaredKind (.repo .tBool)) :=
  ⟨⟨by decide, by decide⟩,
    C8_literal_types.1 cfgSmall false 2 1 ⟨[]⟩ (by decide),
    C8_literal_types.2.2.1 defaultConfig (.repo .tBool) ⟨[0]⟩ (.bool true) ⟨[]⟩
      (by decide)⟩

/-- C9: two runs with identical seed and identical effective configuration
produce identical outcomes — models and errors alike — regardless of the
prior global random state (seeding overwrites it) and regardless of the
set-iteration orders of the two runs: a run only returns a Model on paths
that never execute the order-sensitive set conversions (with components
requested, every run stops at the cpu-role AttributeError before any
order-dependent data could reach a Model). -/
theorem C9_determinism (p₁ p₂ : PyProcess) (seed : Nat) (ov : Config → Config)
    (ord₁ ord₂ : Bool) (ni nc : Nat)
    (h : p₁.globalConfig = p₂.globalConfig) :
    runGeneration p₁ (some seed) ov ord₁ ni nc
      = runGeneration p₂ (some seed) ov ord₂ ni nc := by
  simp only [runGeneration, initModelGenerator, h, generate_complete_model,
    bind, Except.bind]
  rw [generate_repository_ord (ov p₂.globalConfig) ord₁ ord₂ ni nc
    (seedRng seed)]

/-- C9 witness: two processes with different prior entropy and different
set-iteration orders produce the same completed model for seed 5. -/
theorem C9_witness :
    (freshProcess ⟨[]⟩).globalConfig = (freshProcess ⟨[9, 8, 7]⟩).globalConfig ∧
    runGeneration (freshProcess ⟨[]⟩) (some 5) (fun _ => cfgSmall) false 2 0
      = runGeneration (freshProcess ⟨[9, 8, 7]⟩) (some 5) (fun _ => cfgSmall)
        true 2 0 :=
  ⟨rfl, C9_determinism (freshProcess ⟨[]⟩) (freshProcess ⟨[9, 8, 7]⟩) 5
    (fun _ => cfgSmall) false true 2 0 rfl⟩

/-- C10: constructing a generator with overrides writes through to the
shared module-level configuration, so a later generator constructed with
no overrides observes the overridden values instead of the defaults. -/
theorem C10_config_aliasing (ov : Config → Config) (seed₁ seed₂ : Option Nat) (rng : Rng)
    (h : ov defaultConfig ≠ defaultConfig) :
    (initModelGenerator seed₂ (fun c => c)
        ((initModelGenerator seed₁ ov (freshProcess rng)).1)).2
      = ov defaultConfig ∧
    (initModelGenerator seed₂ (fun c => c)
        ((initModelGenerator seed₁ ov (freshProcess rng)).1)).2
      ≠ defaultConfig :=
  ⟨rfl, h⟩

/-- C10 witness: after one generator overrides `min_calls` to 42, a
second override-free generator sees 42, not the default. -/
theorem C10_witness :
    ((fun c => { c with min_calls := 42 }) defaultConfig ≠ defaultConfig) ∧
    ((initModelGenerator none (fun c => c)
        ((initModelGenerator (some 3) (fun c => { c with min_calls := 42 })
          (freshProcess ⟨[]⟩)).1)).2
      = (fun c => { c with min_calls := 42 }) defaultConfig ∧
    (initModelGenerator none (fun c => c)
        ((initModelGenerator (some 3) (fun c => { c with min_calls := 42 })
          (freshProcess ⟨[]⟩)).1)).2
      ≠ defaultConfig) :=
  ⟨by decide, C10_config_aliasing (fun c => { c with min_calls := 42 }) (some 3) none ⟨[]⟩
    (by decide)⟩
